import Mathlib

/-!
Verification of the session/authentication bootstrap and route-guarding
core of the LearnMate single-page application (the `App` component:
session resolver effect, auth context store with `logout`, and the
route guard over `/`, `/features`, `/tutor`, `/dashboard`).

Strings from the JavaScript source are modelled as `List Char`; the
JavaScript string operations used by the code (`split`, `includes`)
are embedded below with their JavaScript semantics.
-/

namespace LearnMate

/-- Embedding of JavaScript `s.split(sep)` for the non-empty separators
used by the code: scan left to right, cutting at each non-overlapping
occurrence of `sep`.  After a match at `c :: cs`, the whole separator is
consumed: one character as `c`, the remaining `sep.length - 1` from `cs`. -/
def jsSplitOn (sep : List Char) : List Char → List (List Char)
  | [] => [[]]
  | c :: cs =>
    if sep.isPrefixOf (c :: cs) then
      [] :: jsSplitOn sep (cs.drop (sep.length - 1))
    else
      match jsSplitOn sep cs with
      | [] => [[c]]
      | t :: ts => (c :: t) :: ts
termination_by s => s.length
decreasing_by
  · simp only [List.length_drop, List.length_cons]
    omega
  · simp only [List.length_cons]
    omega

/-- Embedding of JavaScript `s.includes(sub)`: substring containment. -/
def jsIncludes (sub : List Char) : List Char → Bool
  | [] => sub.isEmpty
  | c :: cs => sub.isPrefixOf (c :: cs) || jsIncludes sub cs

/-- The literal `'session_id='` searched for in the URL fragment. -/
def sessionKey : List Char := String.toList "session_id="

/-- The literal `'&'` separating fragment parameters. -/
def ampKey : List Char := String.toList "&"

/-- The guard of the resolver's first branch:
`hash && hash.includes('session_id=')` (an empty string is falsy). -/
def sessionGuard (hash : List Char) : Bool :=
  !hash.isEmpty && jsIncludes sessionKey hash

/-- `hash.split('session_id=')[1].split('&')[0]` from the source.
JavaScript indexing out of range yields `undefined`; under `sessionGuard`
the index `1` always exists, and `split` never returns an empty array,
so the defaults are never taken. -/
def extractSessionId (hash : List Char) : List Char :=
  (jsSplitOn ampKey ((jsSplitOn sessionKey hash).getD 1 [])).getD 0 []

/-- The user identity `{ id, name, email, picture?, learning_interests? }`. -/
structure UserIdentity where
  id : List Char
  name : List Char
  email : List Char
  picture : Option (List Char)
  learning_interests : Option (List (List Char))
deriving DecidableEq, Repr

/-- Outcome of one HTTP request: a fulfilled promise carrying a value,
or a rejected one. -/
inductive HResp (α : Type) where
  | ok (val : α)
  | err
deriving DecidableEq, Repr

/-- The parts of `window.location` the core reads. -/
structure Url where
  pathname : List Char
  search : List Char
  hash : List Char
deriving DecidableEq, Repr

/-- The `App` component state: `user`, `loading`, `processingAuth`. -/
structure AppState where
  user : Option UserIdentity
  loading : Bool
  processingAuth : Bool
deriving DecidableEq, Repr

/-- Initial state: `useState(null)`, `useState(true)`, `useState(false)`. -/
def initialAppState : AppState :=
  { user := none, loading := true, processingAuth := false }

/-- Observable side effects of one run of the resolver effect. -/
structure Effects where
  sessionCalls : List (List Char)
  meCalls : Nat
  logoutCalls : Nat
  historyReplaces : List Url
  navigations : Nat
  consoleErrors : Nat
  toasts : Nat
deriving DecidableEq, Repr

/-- State, effects and final visible URL after the resolver settles. -/
structure LoadResult where
  state : AppState
  effects : Effects
  finalUrl : Url
deriving DecidableEq, Repr

/-- The resolver `useEffect` of `App`, run once per load, transcribed
from the source.  `sResp` gives the backend's answer to
`POST /auth/session` for a given `session_id` body; `mResp` the answer
to `GET /auth/me`.  The session branch: on success `setUser` and
`history.replaceState(null, '', window.location.pathname)`; on failure
`console.error` only, the initial `null` user and the URL untouched;
`finally` clears `processingAuth` and `loading`.  The other branch:
`setUser(response.data)` or `setUser(null)`, then `loading` cleared. -/
def runLoad (url : Url) (sResp : List Char → HResp UserIdentity)
    (mResp : HResp UserIdentity) : LoadResult :=
  if sessionGuard url.hash then
    let sessionId := extractSessionId url.hash
    match sResp sessionId with
    | .ok u =>
      { state := { user := some u, loading := false, processingAuth := false }
        effects := { sessionCalls := [sessionId], meCalls := 0, logoutCalls := 0
                     historyReplaces := [{ pathname := url.pathname, search := [], hash := [] }]
                     navigations := 0, consoleErrors := 0, toasts := 0 }
        finalUrl := { pathname := url.pathname, search := [], hash := [] } }
    | .err =>
      { state := { user := none, loading := false, processingAuth := false }
        effects := { sessionCalls := [sessionId], meCalls := 0, logoutCalls := 0
                     historyReplaces := [], navigations := 0, consoleErrors := 1, toasts := 0 }
        finalUrl := url }
  else
    match mResp with
    | .ok u =>
      { state := { user := some u, loading := false, processingAuth := false }
        effects := { sessionCalls := [], meCalls := 1, logoutCalls := 0
                     historyReplaces := [], navigations := 0, consoleErrors := 0, toasts := 0 }
        finalUrl := url }
    | .err =>
      { state := { user := none, loading := false, processingAuth := false }
        effects := { sessionCalls := [], meCalls := 1, logoutCalls := 0
                     historyReplaces := [], navigations := 0, consoleErrors := 0, toasts := 0 }
        finalUrl := url }

/-- Result of one call of the `logout` operation. -/
structure LogoutResult where
  user : Option UserIdentity
  logoutCalls : Nat
  consoleErrors : Nat
deriving DecidableEq, Repr

/-- The `logout` operation of the auth context, transcribed from the
source: `await axios.post('/auth/logout'); setUser(null)` inside `try`,
`console.error` in `catch`.  `setUser(null)` runs only when the request
fulfils; a rejected request leaves the stored user unchanged. -/
def logout (user0 : Option UserIdentity) (resp : HResp Unit) : LogoutResult :=
  match resp with
  | .ok _ => { user := none, logoutCalls := 1, consoleErrors := 0 }
  | .err => { user := user0, logoutCalls := 1, consoleErrors := 1 }

/-- The four routes of the application. -/
inductive View where
  | home
  | features
  | tutor
  | dashboard
deriving DecidableEq, Repr

/-- What one render of `App` produces for a requested view. -/
inductive Rendered where
  | loadingScreen
  | page (v : View)
  | redirect (target : View) (replaceHistory : Bool)
deriving DecidableEq, Repr

/-- The render function of `App`: the `loading || processingAuth` gate
returns the spinner screen; otherwise the `Routes` render `/` and
`/features` directly, and `/tutor`, `/dashboard` render their page when
`user` is non-null and `<Navigate to='/' replace />` otherwise. -/
def renderApp (st : AppState) (v : View) : Rendered :=
  if st.loading || st.processingAuth then
    .loadingScreen
  else
    match v with
    | .home => .page .home
    | .features => .page .features
    | .tutor => if st.user.isSome then .page .tutor else .redirect .home true
    | .dashboard => if st.user.isSome then .page .dashboard else .redirect .home true

/-- One page load as seen by the auth store: the single resolution
outcome, then any number of user-triggered logout attempts. -/
structure LoadTrace where
  resolution : HResp UserIdentity
  logoutResponses : List (HResp Unit)
deriving DecidableEq, Repr

/-- The stored identity right after resolution settles (either branch
of `runLoad` ends with this user). -/
def userAfterResolution (r : HResp UserIdentity) : Option UserIdentity :=
  match r with
  | .ok u => some u
  | .err => none

/-- The stored identity after the whole trace. -/
def userAfterTrace (t : LoadTrace) : Option UserIdentity :=
  t.logoutResponses.foldl (fun u r => (logout u r).user) (userAfterResolution t.resolution)

/-- Spec-side helper: the suffix of `s` after the first occurrence of
the separator `sep`, or `none` when `sep` does not occur in `s`. -/
def afterFirst (sep : List Char) : List Char → Option (List Char)
  | [] => none
  | c :: cs =>
    if sep.isPrefixOf (c :: cs) then some (cs.drop (sep.length - 1))
    else afterFirst sep cs

/-- Spec-side helper: the prefix of `s` up to (excluding) the first
`'&'`, or all of `s` when no `'&'` occurs. -/
def takeUntilAmp : List Char → List Char
  | [] => []
  | c :: cs => if c = '&' then [] else c :: takeUntilAmp cs

/-- The token extraction as the specification words it: the substring
between `session_id=` and the next `&`, or the end of the string when
no `&` follows. -/
def specExtractedToken (hash : List Char) : List Char :=
  match afterFirst sessionKey hash with
  | some rest => takeUntilAmp rest
  | none => []

/-! ### Helper lemmas about the split embedding -/

/-- `split` never returns an empty array. -/
theorem jsSplitOn_ne_nil (sep : List Char) (s : List Char) :
    jsSplitOn sep s ≠ [] := by
  induction s using jsSplitOn.induct sep with
  | case1 => simp [jsSplitOn]
  | case2 c cs hpre ih =>
      rw [jsSplitOn]
      simp [hpre]
  | case3 c cs hpre hnil ih =>
      exact absurd hnil ih
  | case4 c cs hpre t ts hcons ih =>
      rw [jsSplitOn]
      simp [hpre, hcons]

/-- When the separator does not occur in `s`, `split` returns `[s]`. -/
theorem jsSplitOn_of_no_occurrence (sep : List Char) (s : List Char)
    (h : afterFirst sep s = none) : jsSplitOn sep s = [s] := by
  induction s using jsSplitOn.induct sep with
  | case1 => simp [jsSplitOn]
  | case2 c cs hpre ih =>
      rw [afterFirst] at h
      simp [hpre] at h
  | case3 c cs hpre hnil ih =>
      exact absurd hnil (jsSplitOn_ne_nil sep cs)
  | case4 c cs hpre t ts hcons ih =>
      rw [afterFirst] at h
      simp [hpre] at h
      have h2 := ih h
      rw [jsSplitOn]
      simp [hpre, hcons]
      rw [hcons] at h2
      injection h2 with h3 h4
      exact ⟨h3, h4⟩

/-- When the separator first occurs with suffix `rest`, `split`
produces one chunk before the chunks of `rest`. -/
theorem jsSplitOn_of_first_occurrence (sep : List Char) (s rest : List Char)
    (h : afterFirst sep s = some rest) :
    ∃ pre, jsSplitOn sep s = pre :: jsSplitOn sep rest := by
  induction s using jsSplitOn.induct sep with
  | case1 => simp [afterFirst] at h
  | case2 c cs hpre ih =>
      rw [afterFirst] at h
      simp [hpre] at h
      refine ⟨[], ?_⟩
      rw [jsSplitOn]
      simp [hpre, h]
  | case3 c cs hpre hnil ih =>
      rw [afterFirst] at h
      simp [hpre] at h
      obtain ⟨pre, hp⟩ := ih h
      rw [hp] at hnil
      cases hnil
  | case4 c cs hpre t ts hcons ih =>
      rw [afterFirst] at h
      simp [hpre] at h
      obtain ⟨pre, hp⟩ := ih h
      refine ⟨c :: pre, ?_⟩
      rw [jsSplitOn]
      simp [hpre, hcons]
      rw [hcons] at hp
      injection hp with h3 h4
      exact ⟨h3, h4⟩

/-- The first chunk of `s.split('&')` is the prefix of `s` up to the
first `'&'`. -/
theorem jsSplitOn_amp_head (s : List Char) :
    (jsSplitOn ampKey s).getD 0 [] = takeUntilAmp s := by
  induction s using jsSplitOn.induct ampKey with
  | case1 => simp [jsSplitOn, takeUntilAmp]
  | case2 c cs hpre ih =>
      have hc : c = '&' := by
        simp [ampKey, List.isPrefixOf] at hpre
        exact hpre.symm
      subst hc
      rw [jsSplitOn]
      simp [hpre, takeUntilAmp]
  | case3 c cs hpre hnil ih =>
      exact absurd hnil (jsSplitOn_ne_nil ampKey cs)
  | case4 c cs hpre t ts hcons ih =>
      have hc : ¬ c = '&' := by
        intro hc
        apply hpre
        simp [ampKey, List.isPrefixOf, hc]
      rw [jsSplitOn]
      simp [hpre, hcons, takeUntilAmp, hc]
      rw [hcons] at ih
      simpa using ih

/-- Whatever the backend answers, a load whose guard holds records
exactly one `/auth/session` call with the extracted token and no
`/auth/me` call. -/
theorem runLoad_guard_true_effects (url : Url)
    (sResp : List Char → HResp UserIdentity) (mResp : HResp UserIdentity)
    (hg : sessionGuard url.hash = true) :
    (runLoad url sResp mResp).effects.sessionCalls = [extractSessionId url.hash] ∧
    (runLoad url sResp mResp).effects.meCalls = 0 := by
  cases hs : sResp (extractSessionId url.hash) <;>
    constructor <;> simp [runLoad, hg, hs]

/-! ### Concrete data used by counterexamples and witnesses -/

/-- A sample user identity. -/
def demoUser : UserIdentity :=
  { id := String.toList "u1", name := String.toList "Ann"
    email := String.toList "ann@example.com", picture := none
    learning_interests := none }

/-! ### Claims -/

/-- Claim C1, counterexample: with a signed-in user and a rejected
`POST /auth/logout`, the stored identity after `logout` is still the
user, not `null` — the claim's "regardless of whether the backend
logout request succeeded or failed" fails on the failure side. -/
theorem c1_logout_counterexample :
    (logout (some demoUser) HResp.err).user = some demoUser ∧
    (logout (some demoUser) HResp.err).user ≠ none := by
  exact ⟨rfl, by decide⟩

/-- Claim C1 (amended): `logout` clears the stored identity to `null`
exactly when the backend logout request succeeds; a rejected request
leaves the identity unchanged and only logs the error.  Either way the
backend logout request is issued exactly once. -/
theorem c1_logout_clears_only_on_success :
    ∀ (u : Option UserIdentity),
      (logout u (HResp.ok ())).user = none ∧
      (logout u HResp.err).user = u ∧
      (logout u (HResp.ok ())).logoutCalls = 1 ∧
      (logout u HResp.err).logoutCalls = 1 ∧
      (logout u HResp.err).consoleErrors = 1 := by
  intro u
  exact ⟨rfl, rfl, rfl, rfl, rfl⟩

/-- Claim C3: while the resolution is pending (`loading` true, or
`processingAuth` true), every requested view renders the neutral
loading placeholder — never a page and never a redirect. -/
theorem c3_pending_renders_loading (st : AppState) (v : View)
    (h : st.loading = true ∨ st.processingAuth = true) :
    renderApp st v = Rendered.loadingScreen ∧
    (∀ v', renderApp st v ≠ Rendered.page v') ∧
    (∀ t b, renderApp st v ≠ Rendered.redirect t b) := by
  have hgate : (st.loading || st.processingAuth) = true := by
    rcases h with h | h <;> simp [h]
  refine ⟨?_, ?_, ?_⟩ <;> simp [renderApp, hgate]

/-- Claim C3, witness: at the initial state (pending) the protected
`/tutor` view renders the loading placeholder. -/
theorem c3_pending_renders_loading_witness :
    renderApp initialAppState View.tutor = Rendered.loadingScreen :=
  (c3_pending_renders_loading initialAppState View.tutor (Or.inl rfl)).1

/-- Claim C4: once resolution has settled, a protected view request
with a null identity yields a history-replacing redirect to the landing
view — on every one of any number of repeated attempts, never the
protected page — while a non-null identity renders the protected view. -/
theorem c4_guard_redirects_anonymous (st : AppState)
    (hl : st.loading = false) (hp : st.processingAuth = false) :
    (st.user = none →
      renderApp st View.tutor = Rendered.redirect View.home true ∧
      renderApp st View.dashboard = Rendered.redirect View.home true ∧
      (∀ n : Nat, (List.range n).map (fun _ => renderApp st View.tutor) =
        List.replicate n (Rendered.redirect View.home true)) ∧
      (∀ v', renderApp st View.tutor ≠ Rendered.page v' ∧
             renderApp st View.dashboard ≠ Rendered.page v')) ∧
    (∀ u, st.user = some u →
      renderApp st View.tutor = Rendered.page View.tutor ∧
      renderApp st View.dashboard = Rendered.page View.dashboard) := by
  constructor
  · intro hu
    refine ⟨?_, ?_, ?_, ?_⟩ <;>
      simp [renderApp, hl, hp, hu, List.map_const', List.eq_replicate_iff]
  · intro u hu
    constructor <;> simp [renderApp, hl, hp, hu]

/-- Claim C4, witness: with a settled anonymous state the guard
redirects `/tutor` to the landing view with a history replace, and with
a settled signed-in state it renders `/dashboard`. -/
theorem c4_guard_redirects_anonymous_witness :
    renderApp { user := none, loading := false, processingAuth := false }
      View.tutor = Rendered.redirect View.home true ∧
    renderApp { user := some demoUser, loading := false, processingAuth := false }
      View.dashboard = Rendered.page View.dashboard :=
  ⟨((c4_guard_redirects_anonymous
      { user := none, loading := false, processingAuth := false } rfl rfl).1 rfl).1,
   ((c4_guard_redirects_anonymous
      { user := some demoUser, loading := false, processingAuth := false } rfl rfl).2
      demoUser rfl).2⟩

/-- Claim C8: within one page load, identity is gained only at
resolution: an anonymous store stays anonymous under any sequence of
logout outcomes, one logout step never invents an identity, and a trace
ending signed-in as `v` must have resolved `ok v`. -/
theorem c8_anonymous_is_terminal :
    (∀ (rs : List (HResp Unit)),
      rs.foldl (fun u r => (logout u r).user) none = none) ∧
    (∀ (u : Option UserIdentity) (r : HResp Unit),
      (logout u r).user = none ∨ (logout u r).user = u) ∧
    (∀ (t : LoadTrace) (v : UserIdentity),
      userAfterTrace t = some v → t.resolution = HResp.ok v) := by
  have hstep : ∀ (rs : List (HResp Unit)) (u : Option UserIdentity)
      (v : UserIdentity),
      rs.foldl (fun u r => (logout u r).user) u = some v → u = some v := by
    intro rs
    induction rs with
    | nil => intro u v h; exact h
    | cons r rs ih =>
        intro u v h
        have h2 := ih _ _ h
        cases r with
        | ok a => simp [logout] at h2
        | err => exact h2
  have hnone : ∀ (rs : List (HResp Unit)),
      rs.foldl (fun u r => (logout u r).user) none = none := by
    intro rs
    induction rs with
    | nil => rfl
    | cons r rs ih =>
        cases r with
        | ok a => simpa [logout] using ih
        | err => simpa [logout] using ih
  refine ⟨hnone, ?_, ?_⟩
  · intro u r
    cases r with
    | ok a => exact Or.inl rfl
    | err => exact Or.inr rfl
  · intro t v h
    have h2 := hstep t.logoutResponses (userAfterResolution t.resolution) v h
    cases hres : t.resolution with
    | ok u =>
        rw [hres] at h2
        simp [userAfterResolution] at h2
        rw [h2]
    | err =>
        rw [hres] at h2
        simp [userAfterResolution] at h2

/-- Claim C8, witness: a trace that resolves to the sample user and
then suffers a failed logout still holds that user, and the theorem
pins its resolution to `ok`. -/
theorem c8_anonymous_is_terminal_witness :
    userAfterTrace { resolution := HResp.ok demoUser, logoutResponses := [HResp.err] }
      = some demoUser ∧
    LoadTrace.resolution
      { resolution := HResp.ok demoUser, logoutResponses := [HResp.err] }
      = HResp.ok demoUser :=
  ⟨by decide,
   c8_anonymous_is_terminal.2.2
     { resolution := HResp.ok demoUser, logoutResponses := [HResp.err] }
     demoUser (by decide)⟩

/-- A load arriving at `/tutor` with a `session_id` fragment. -/
def fragUrl : Url :=
  { pathname := String.toList "/tutor", search := []
    hash := String.toList "#session_id=abc" }

/-- A load whose fragment holds `session_id=` only as the tail of a
longer parameter name. -/
def otherUrl : Url :=
  { pathname := String.toList "/", search := []
    hash := String.toList "#other_session_id=t" }

/-- A load whose fragment is exactly `#session_id=`. -/
def emptyTokUrl : Url :=
  { pathname := String.toList "/", search := []
    hash := String.toList "#session_id=" }

/-- Claim C2, counterexample: when the `POST /auth/session` request is
rejected, the resolver leaves the visible URL — fragment included —
untouched: the `session_id` fragment is NOT absent after the resolution
settles on the failure side. -/
theorem c2_fragment_kept_on_failure_counterexample :
    (runLoad fragUrl (fun _ => HResp.err) HResp.err).finalUrl = fragUrl ∧
    jsIncludes sessionKey
      (runLoad fragUrl (fun _ => HResp.err) HResp.err).finalUrl.hash = true ∧
    (runLoad fragUrl (fun _ => HResp.err) HResp.err).effects.historyReplaces = [] := by
  refine ⟨?_, ?_, ?_⟩ <;> decide

/-- Claim C2 (amended): for a load whose fragment contains
`session_id=`, when the `/auth/session` request succeeds the fragment
is stripped from the visible URL by a single non-navigating history
replace (the URL becomes the pathname alone); when the request fails
the visible URL is left unchanged, fragment still present. -/
theorem c2_fragment_stripped_on_success (url : Url)
    (sResp : List Char → HResp UserIdentity) (mResp : HResp UserIdentity)
    (hguard : sessionGuard url.hash = true) :
    (∀ u, sResp (extractSessionId url.hash) = HResp.ok u →
      (runLoad url sResp mResp).finalUrl =
        { pathname := url.pathname, search := [], hash := [] } ∧
      (runLoad url sResp mResp).effects.historyReplaces =
        [{ pathname := url.pathname, search := [], hash := [] }] ∧
      (runLoad url sResp mResp).effects.navigations = 0) ∧
    (sResp (extractSessionId url.hash) = HResp.err →
      (runLoad url sResp mResp).finalUrl = url ∧
      (runLoad url sResp mResp).effects.navigations = 0) := by
  constructor
  · intro u hok
    refine ⟨?_, ?_, ?_⟩ <;> simp [runLoad, hguard, hok]
  · intro herr
    refine ⟨?_, ?_⟩ <;> simp [runLoad, hguard, herr]

/-- Claim C2, witness: a successful session establishment on
`/tutor#session_id=abc` leaves the visible URL `/tutor` with no
fragment, via one history replace and no navigation. -/
theorem c2_fragment_stripped_on_success_witness :
    (runLoad fragUrl (fun _ => HResp.ok demoUser) HResp.err).finalUrl =
      { pathname := String.toList "/tutor", search := [], hash := [] } ∧
    (runLoad fragUrl (fun _ => HResp.ok demoUser) HResp.err).effects.historyReplaces =
      [{ pathname := String.toList "/tutor", search := [], hash := [] }] ∧
    (runLoad fragUrl (fun _ => HResp.ok demoUser) HResp.err).effects.navigations = 0 :=
  (c2_fragment_stripped_on_success fragUrl (fun _ => HResp.ok demoUser) HResp.err
    (by decide)).1 demoUser rfl

/-- Claim C5: per load exactly one resolution path runs, chosen by the
fragment test alone: with the guard true, one `POST /auth/session`
carrying the extracted token and zero `GET /auth/me`; with it false,
one `GET /auth/me` and zero `/auth/session` calls — whatever the
backend answers. -/
theorem c5_exactly_one_resolution_path (url : Url)
    (sResp : List Char → HResp UserIdentity) (mResp : HResp UserIdentity) :
    (sessionGuard url.hash = true →
      (runLoad url sResp mResp).effects.sessionCalls = [extractSessionId url.hash] ∧
      (runLoad url sResp mResp).effects.meCalls = 0) ∧
    (sessionGuard url.hash = false →
      (runLoad url sResp mResp).effects.meCalls = 1 ∧
      (runLoad url sResp mResp).effects.sessionCalls = []) := by
  constructor
  · intro hg
    cases hs : sResp (extractSessionId url.hash) <;>
      constructor <;> simp [runLoad, hg, hs]
  · intro hg
    cases hm : mResp <;> constructor <;> simp [runLoad, hg, hm]

/-- Claim C5, witness: a load with a `session_id` fragment makes the
one session call and no `/auth/me` call; a load without one makes the
one `/auth/me` call and no session call. -/
theorem c5_exactly_one_resolution_path_witness :
    (runLoad fragUrl (fun _ => HResp.err) HResp.err).effects.sessionCalls =
      [extractSessionId (String.toList "#session_id=abc")] ∧
    (runLoad fragUrl (fun _ => HResp.err) HResp.err).effects.meCalls = 0 ∧
    (runLoad { pathname := String.toList "/dashboard", search := [], hash := [] }
      (fun _ => HResp.err) HResp.err).effects.meCalls = 1 ∧
    (runLoad { pathname := String.toList "/dashboard", search := [], hash := [] }
      (fun _ => HResp.err) HResp.err).effects.sessionCalls = [] := by
  have h1 := (c5_exactly_one_resolution_path fragUrl (fun _ => HResp.err) HResp.err).1
    (by decide)
  have h2 := (c5_exactly_one_resolution_path
    { pathname := String.toList "/dashboard", search := [], hash := [] }
    (fun _ => HResp.err) HResp.err).2 (by decide)
  exact ⟨h1.1, h1.2, h2.1, h2.2⟩

/-- Claim C7: on a load without a `session_id` fragment whose
`GET /auth/me` request fails, the outcome is a null identity with no
console error and no user-facing toast — silent anonymous resolution. -/
theorem c7_me_failure_silently_anonymous (url : Url)
    (sResp : List Char → HResp UserIdentity)
    (hguard : sessionGuard url.hash = false) :
    (runLoad url sResp HResp.err).state.user = none ∧
    (runLoad url sResp HResp.err).state.loading = false ∧
    (runLoad url sResp HResp.err).effects.consoleErrors = 0 ∧
    (runLoad url sResp HResp.err).effects.toasts = 0 ∧
    (runLoad url sResp HResp.err).effects.meCalls = 1 := by
  refine ⟨?_, ?_, ?_, ?_, ?_⟩ <;> simp [runLoad, hguard]

/-- Claim C7, witness: a direct visit to `/dashboard` with a rejected
`/auth/me` resolves to a null identity with zero errors surfaced. -/
theorem c7_me_failure_silently_anonymous_witness :
    (runLoad { pathname := String.toList "/dashboard", search := [], hash := [] }
      (fun _ => HResp.err) HResp.err).state.user = none ∧
    (runLoad { pathname := String.toList "/dashboard", search := [], hash := [] }
      (fun _ => HResp.err) HResp.err).effects.consoleErrors = 0 := by
  have h := c7_me_failure_silently_anonymous
    { pathname := String.toList "/dashboard", search := [], hash := [] }
    (fun _ => HResp.err) (by decide)
  exact ⟨h.1, h.2.2.1⟩

/-- Claim C9: the branch test is a pure substring test — the guard
equals `'session_id='.isInfixOf hash` for every fragment; a fragment
`#other_session_id=t` triggers the session path with token `t`; a
fragment of exactly `#session_id=` triggers it with the empty token;
and extraction uses the first occurrence of `session_id=`. -/
theorem c9_detection_is_substring_test :
    (∀ hash : List Char, sessionGuard hash = jsIncludes sessionKey hash) ∧
    (∀ (sResp : List Char → HResp UserIdentity) (mResp : HResp UserIdentity),
      (runLoad otherUrl sResp mResp).effects.sessionCalls = [String.toList "t"] ∧
      (runLoad otherUrl sResp mResp).effects.meCalls = 0) ∧
    (∀ (sResp : List Char → HResp UserIdentity) (mResp : HResp UserIdentity),
      (runLoad emptyTokUrl sResp mResp).effects.sessionCalls = [[]] ∧
      (runLoad emptyTokUrl sResp mResp).effects.meCalls = 0) ∧
    extractSessionId (String.toList "#a=session_id=1&session_id=2") = String.toList "1" := by
  refine ⟨?_, ?_, ?_, ?_⟩
  · intro hash
    cases hash with
    | nil => decide
    | cons c cs => simp [sessionGuard]
  · intro sResp mResp
    have h := runLoad_guard_true_effects otherUrl sResp mResp (by decide)
    have he : extractSessionId otherUrl.hash = String.toList "t" := by
      simp [extractSessionId, otherUrl, jsSplitOn, sessionKey, ampKey, List.isPrefixOf]
    exact ⟨h.1.trans (by rw [he]), h.2⟩
  · intro sResp mResp
    have h := runLoad_guard_true_effects emptyTokUrl sResp mResp (by decide)
    have he : extractSessionId emptyTokUrl.hash = [] := by
      simp [extractSessionId, emptyTokUrl, jsSplitOn, sessionKey, ampKey, List.isPrefixOf]
    exact ⟨h.1.trans (by rw [he]), h.2⟩
  · simp [extractSessionId, jsSplitOn, sessionKey, ampKey, List.isPrefixOf]

/-- Claim C10: when session establishment succeeds, the history replace
installs the pathname alone — any query string on the URL is dropped
together with the fragment, and only the path survives. -/
theorem c10_cleanup_replaces_with_pathname_alone (url : Url)
    (sResp : List Char → HResp UserIdentity) (mResp : HResp UserIdentity)
    (u : UserIdentity) (hguard : sessionGuard url.hash = true)
    (hok : sResp (extractSessionId url.hash) = HResp.ok u) :
    (runLoad url sResp mResp).finalUrl.pathname = url.pathname ∧
    (runLoad url sResp mResp).finalUrl.search = [] ∧
    (runLoad url sResp mResp).finalUrl.hash = [] ∧
    (runLoad url sResp mResp).effects.historyReplaces =
      [(runLoad url sResp mResp).finalUrl] := by
  refine ⟨?_, ?_, ?_, ?_⟩ <;> simp [runLoad, hguard, hok]

/-- Claim C10, witness: a success load on `/tutor?q=1#session_id=xyz`
ends with visible URL `/tutor`: the query string is gone too. -/
theorem c10_cleanup_replaces_with_pathname_alone_witness :
    (runLoad { pathname := String.toList "/tutor", search := String.toList "?q=1"
               hash := String.toList "#session_id=xyz" }
      (fun _ => HResp.ok demoUser) HResp.err).finalUrl.search = [] ∧
    (runLoad { pathname := String.toList "/tutor", search := String.toList "?q=1"
               hash := String.toList "#session_id=xyz" }
      (fun _ => HResp.ok demoUser) HResp.err).finalUrl.hash = [] :=
  ⟨(c10_cleanup_replaces_with_pathname_alone
      { pathname := String.toList "/tutor", search := String.toList "?q=1"
        hash := String.toList "#session_id=xyz" }
      (fun _ => HResp.ok demoUser) HResp.err demoUser (by decide) rfl).2.1,
   (c10_cleanup_replaces_with_pathname_alone
      { pathname := String.toList "/tutor", search := String.toList "?q=1"
        hash := String.toList "#session_id=xyz" }
      (fun _ => HResp.ok demoUser) HResp.err demoUser (by decide) rfl).2.2.1⟩

/-- Claim C6, counterexample: on the fragment
`#session_id=abc123session_id=x` — which contains `session_id=` and has
no `&` — the claim demands the token `abc123session_id=x` (end of
string), but the code extracts `abc123`: `split('session_id=')[1]` stops
at the second occurrence of the separator. -/
theorem c6_token_extraction_counterexample :
    extractSessionId (String.toList "#session_id=abc123session_id=x")
      = String.toList "abc123" ∧
    specExtractedToken (String.toList "#session_id=abc123session_id=x")
      = String.toList "abc123session_id=x" ∧
    extractSessionId (String.toList "#session_id=abc123session_id=x")
      ≠ specExtractedToken (String.toList "#session_id=abc123session_id=x") := by
  have h1 : extractSessionId (String.toList "#session_id=abc123session_id=x")
      = String.toList "abc123" := by
    simp [extractSessionId, jsSplitOn, sessionKey, ampKey, List.isPrefixOf]
  have h2 : specExtractedToken (String.toList "#session_id=abc123session_id=x")
      = String.toList "abc123session_id=x" := by decide
  refine ⟨h1, h2, ?_⟩
  rw [h1, h2]
  decide

/-- Claim C6 (amended): when `session_id=` occurs exactly once in the
fragment, the extracted token is exactly the substring between
`session_id=` and the next `&`, or the end of the string when no `&`
follows; with further occurrences the extraction also stops at the next
`session_id=`.  (`afterFirst` names the suffix after the single
occurrence; `takeUntilAmp rest` is that substring.) -/
theorem c6_token_extraction_single_occurrence (hash rest : List Char)
    (h1 : afterFirst sessionKey hash = some rest)
    (h2 : afterFirst sessionKey rest = none) :
    extractSessionId hash = specExtractedToken hash ∧
    specExtractedToken hash = takeUntilAmp rest := by
  have hspec : specExtractedToken hash = takeUntilAmp rest := by
    simp [specExtractedToken, h1]
  obtain ⟨pre, hp⟩ := jsSplitOn_of_first_occurrence sessionKey hash rest h1
  have hrest : jsSplitOn sessionKey rest = [rest] :=
    jsSplitOn_of_no_occurrence sessionKey rest h2
  have hextract : extractSessionId hash = takeUntilAmp rest := by
    rw [extractSessionId, hp, hrest]
    simpa using jsSplitOn_amp_head rest
  exact ⟨hextract.trans hspec.symm, hspec⟩

/-- Claim C6, witness: on the spec's own example
`#session_id=abc123&foo=bar` the single occurrence hypothesis holds and
the extracted token is exactly `abc123`. -/
theorem c6_token_extraction_single_occurrence_witness :
    extractSessionId (String.toList "#session_id=abc123&foo=bar")
      = specExtractedToken (String.toList "#session_id=abc123&foo=bar") ∧
    specExtractedToken (String.toList "#session_id=abc123&foo=bar")
      = takeUntilAmp (String.toList "abc123&foo=bar") ∧
    takeUntilAmp (String.toList "abc123&foo=bar") = String.toList "abc123" := by
  have h := c6_token_extraction_single_occurrence
    (String.toList "#session_id=abc123&foo=bar") (String.toList "abc123&foo=bar")
    (by decide) (by decide)
  exact ⟨h.1, h.2, by decide⟩

end LearnMate
